import Mathlib

/-!
Shallow embedding of the edge-chat worker: the `ChatSession` durable-object
memory store (SQLite message log + summary row), the prompt assembly of the
synchronous `/api/chat` turn, and the background `ChatWorkflow` pipeline
(append input, load context, infer, persist output, maybe summarize).

The store state is modelled explicitly: the `messages` table is a list of
rows in insertion order together with the AUTOINCREMENT counter (`nextId`,
starting at 1 on a fresh table), and the `meta` table's single `summary` key
is an `Option String`.  The SQL query `ORDER BY id DESC LIMIT ?` is modelled
by sorting the rows with a descending-id comparator, taking `limit`, and
reversing — exactly what `getContext` does in the source.  The inference
engine is a collaborator and is passed in as a function returning
`Except String String` (error = the engine call rejected; ok = the
normalized response text), and `JSON.stringify` is likewise passed in.
-/

/-- Message roles, from the `MemoryMessage` interface in the durable object. -/
inductive Role
  | system
  | user
  | assistant
  | tool
deriving DecidableEq

/-- A message as it travels through the API: `id` and `ts` are optional,
mirroring `interface MemoryMessage { id?; role; content; ts? }`. -/
structure MemoryMessage where
  id : Option Nat
  role : Role
  content : String
  ts : Option Nat
deriving DecidableEq

/-- A persisted row of the `messages` table (all columns NOT NULL). -/
structure Row where
  id : Nat
  role : Role
  content : String
  ts : Nat
deriving DecidableEq

/-- A stored row as returned to API consumers (all fields present). -/
def Row.toMsg (r : Row) : MemoryMessage :=
  ⟨some r.id, r.role, r.content, some r.ts⟩

/-- The durable state of one conversation's `ChatSession`:
the `messages` table (in insertion order), the AUTOINCREMENT counter,
and the `meta` table's `summary` value (if ever written). -/
structure SessionState where
  rows : List Row
  nextId : Nat
  summary : Option String
deriving DecidableEq

namespace ChatSession

/-- A freshly created conversation: empty tables, AUTOINCREMENT at 1. -/
def initState : SessionState :=
  ⟨[], 1, none⟩

/-- `append(msg)`: `INSERT INTO messages (role, content, ts) VALUES (?, ?, ?)
RETURNING id`, with `ts = msg.ts ?? Date.now()`; returns the assigned id. -/
def append (msg : MemoryMessage) (now : Nat) (s : SessionState) : Nat × SessionState :=
  (s.nextId,
    { rows := s.rows ++ [⟨s.nextId, msg.role, msg.content, msg.ts.getD now⟩]
      nextId := s.nextId + 1
      summary := s.summary })

/-- The ordering of `ORDER BY id DESC`: `a` comes before `b` iff `b.id ≤ a.id`. -/
def descLe (a b : Row) : Prop :=
  b.id ≤ a.id

instance : DecidableRel descLe :=
  fun a b => Nat.decLe b.id a.id

instance : IsTotal Row descLe :=
  ⟨fun a b => Nat.le_total b.id a.id⟩

instance : IsTrans Row descLe :=
  ⟨fun _ _ _ h1 h2 => Nat.le_trans h2 h1⟩

/-- `getContext(limit)`: `SELECT id, role, content, ts FROM messages ORDER BY
id DESC LIMIT ?`, then `.reverse()`, plus `SELECT v FROM meta WHERE
k = 'summary'` with the absent row coalesced to `""` (the `?? ""`). -/
def getContext (limit : Nat) (s : SessionState) : String × List Row :=
  (s.summary.getD "", ((s.rows.insertionSort descLe).take limit).reverse)

/-- `setSummary(summary)`: `INSERT INTO meta (k, v) VALUES ('summary', ?)
ON CONFLICT(k) DO UPDATE SET v = excluded.v` — an upsert of the single row. -/
def setSummary (t : String) (s : SessionState) : SessionState :=
  { s with summary := some t }

/-- `approxChars()`: `SELECT SUM(length(content)) AS n FROM messages`, with
the NULL aggregate over an empty table coalesced to 0 (the `?? 0`). -/
def approxChars (s : SessionState) : Nat :=
  (s.rows.map (fun r => r.content.length)).sum

end ChatSession

/-- The fixed system directive of the chat prompt (both variants). -/
def systemPreamble : List MemoryMessage :=
  [⟨none, Role.system, "You are a concise, friendly assistant. Keep answers helpful and safe.", none⟩]

/-- `summary ? [{ role: "system", content: "Conversation memory: " + summary }] : []` —
one system entry carrying the summary, present exactly when the summary is
non-empty (the empty string is falsy in JS). -/
def memoryBlock (summary : String) : List MemoryMessage :=
  if summary = "" then [] else [⟨none, Role.system, "Conversation memory: " ++ summary, none⟩]

/-- The prompt the synchronous `/api/chat` path sends to the model: after the
user message is appended, `getContext(18)` is read and the prompt is
`[...systemPreamble, ...memory, ...messages]` (no extra trailing entry). -/
def turnConvo (text : String) (now : Nat) (s : SessionState) : List MemoryMessage :=
  systemPreamble
    ++ memoryBlock (ChatSession.getContext 18
        (ChatSession.append ⟨none, Role.user, text, some now⟩ now s).2).1
    ++ (ChatSession.getContext 18
        (ChatSession.append ⟨none, Role.user, text, some now⟩ now s).2).2.map Row.toMsg

/-- The synchronous `/api/chat` turn: append the user message, assemble the
prompt, call the model (`ai`), and on success append the assistant message
and return its text; a rejected model call propagates as the turn's error,
with no further writes (the state is the post-user-append state). -/
def runTurn (ai : List MemoryMessage → Except String String) (text : String)
    (now1 now2 : Nat) (s : SessionState) : SessionState × Except String String :=
  match ai (turnConvo text now1 s) with
  | Except.error e =>
      ((ChatSession.append ⟨none, Role.user, text, some now1⟩ now1 s).2, Except.error e)
  | Except.ok assistantText =>
      ((ChatSession.append ⟨none, Role.assistant, assistantText, some now2⟩ now2
          (ChatSession.append ⟨none, Role.user, text, some now1⟩ now1 s).2).2,
       Except.ok assistantText)

/-- The prompt the background `ChatWorkflow` "llm response" step builds: after
step 1 appended the user message, `getContext(18)` (step 2) is read and the
prompt is
`[...systemPreamble, ...memory, ...messages, { role: "user", content: text }]`
— note the explicit user entry appended after the retrieved messages. -/
def pipelineConvo (text : String) (now : Nat) (s : SessionState) : List MemoryMessage :=
  systemPreamble
    ++ memoryBlock (ChatSession.getContext 18
        (ChatSession.append ⟨none, Role.user, text, some now⟩ now s).2).1
    ++ (ChatSession.getContext 18
        (ChatSession.append ⟨none, Role.user, text, some now⟩ now s).2).2.map Row.toMsg
    ++ [⟨none, Role.user, text, none⟩]

/-- The state after the pipeline's step 1 (append the user input) and step 4
(append the assistant reply `a`) — the store state at which the workflow's
"maybe summarize" step runs. -/
def afterTurnAppends (text a : String) (now1 now2 : Nat) (s : SessionState) : SessionState :=
  (ChatSession.append ⟨none, Role.assistant, a, some now2⟩ now2
    (ChatSession.append ⟨none, Role.user, text, some now1⟩ now1 s).2).2

/-- The summarization instruction of the "maybe summarize" step. -/
def summInstruction : String :=
  "Summarize the conversation so far in under 200 words as bullet notes of stable facts, preferences, tasks and decisions. Do NOT include sensitive data, secrets, or ephemeral greeter chitchat."

/-- The two-entry prompt of the "maybe summarize" step:
the instruction plus `JSON.stringify(ctxForSumm.messages)` where
`ctxForSumm = getContext(40)`; `stringify` is the platform's JSON encoder,
passed in as a collaborator. -/
def summPrompt (stringify : List Row → String) (s : SessionState) : List MemoryMessage :=
  [⟨none, Role.system, summInstruction, none⟩,
   ⟨none, Role.user, stringify (ChatSession.getContext 40 s).2, none⟩]

/-- The body of the workflow's "maybe summarize" step: return unchanged when
`approxChars() < 10_000`; otherwise call the summarization model on
`summPrompt` and write its response via `setSummary` (a rejected call makes
the step fail — there is no try/catch around it in the source). -/
def maybeSummarizeStep (aiSumm : List MemoryMessage → Except String String)
    (stringify : List Row → String) (s : SessionState) : Except String SessionState :=
  if ChatSession.approxChars s < 10000 then Except.ok s
  else (aiSumm (summPrompt stringify s)).map (fun resp => ChatSession.setSummary resp s)

/-- `ChatWorkflow.run`: append user message → load context → llm response →
append assistant message → maybe summarize → return `{ ok: true, text }`.
The store state is threaded through (durable-object writes survive a failed
step), and a step's error propagates, aborting the remaining steps. -/
def ChatWorkflow.run (aiChat aiSumm : List MemoryMessage → Except String String)
    (stringify : List Row → String) (text : String) (now1 now2 : Nat)
    (s : SessionState) : SessionState × Except String (Bool × String) :=
  match aiChat (pipelineConvo text now1 s) with
  | Except.error e =>
      ((ChatSession.append ⟨none, Role.user, text, some now1⟩ now1 s).2, Except.error e)
  | Except.ok assistantText =>
      match maybeSummarizeStep aiSumm stringify
          (afterTurnAppends text assistantText now1 now2 s) with
      | Except.error e => (afterTurnAppends text assistantText now1 now2 s, Except.error e)
      | Except.ok s3 => (s3, Except.ok (true, assistantText))

/-- A sequence of `append` calls: returns the assigned ids in order and the
final state.  Each element carries the message and the `Date.now()` value. -/
def appendAll (inputs : List (MemoryMessage × Nat)) (s : SessionState) :
    List Nat × SessionState :=
  match inputs with
  | [] => ([], s)
  | (m, now) :: rest =>
      let r := ChatSession.append m now s
      let q := appendAll rest r.2
      (r.1 :: q.1, q.2)

/-- The rows a sequence of appends adds, with ids counting up from `startId`. -/
def mkRows (startId : Nat) : List (MemoryMessage × Nat) → List Row
  | [] => []
  | (m, now) :: rest => ⟨startId, m.role, m.content, m.ts.getD now⟩ :: mkRows (startId + 1) rest

/-- Representation invariant of a conversation state: rows are in strictly
increasing id order and every id is below the AUTOINCREMENT counter. -/
def WellFormed (s : SessionState) : Prop :=
  s.rows.Pairwise (fun a b => a.id < b.id) ∧ ∀ r ∈ s.rows, r.id < s.nextId

instance (s : SessionState) : Decidable (WellFormed s) :=
  inferInstanceAs (Decidable (s.rows.Pairwise (fun a b : Row => a.id < b.id)
    ∧ ∀ r ∈ s.rows, r.id < s.nextId))

/-- A chat inference collaborator that always answers "fine". -/
def okChatAI : List MemoryMessage → Except String String :=
  fun _ => Except.ok "fine"

/-- A chat inference collaborator whose call always rejects. -/
def errChatAI : List MemoryMessage → Except String String :=
  fun _ => Except.error "inference failed"

/-- A summarization collaborator that always returns the text "sum". -/
def okSummAI : List MemoryMessage → Except String String :=
  fun _ => Except.ok "sum"

/-- A summarization collaborator whose call always rejects. -/
def errSummAI : List MemoryMessage → Except String String :=
  fun _ => Except.error "boom"

/-- A trivial stand-in for the platform's JSON encoder. -/
def emptyJson : List Row → String :=
  fun _ => "[]"

/-- A small well-formed conversation state used by the witnesses. -/
def demoState : SessionState :=
  ⟨[⟨1, Role.user, "a", 0⟩, ⟨2, Role.assistant, "b", 1⟩, ⟨3, Role.user, "c", 2⟩],
   4, some "sum"⟩

/-- A state holding 9999 content characters: one below the 10000 threshold. -/
def nearState : SessionState :=
  ⟨[⟨1, Role.user, String.mk (List.replicate 9999 'a'), 0⟩], 2, some "old"⟩

/-- A state holding 10000 content characters: exactly at the threshold. -/
def bigState : SessionState :=
  ⟨[⟨1, Role.user, String.mk (List.replicate 10000 'a'), 0⟩], 2, some "old"⟩

/-- Two lists that are permutations of each other and both strictly decreasing
in `id` are equal (ids determine the position). -/
lemma perm_pairwise_desc_eq : ∀ {l₁ l₂ : List Row}, l₁.Perm l₂ →
    l₁.Pairwise (fun a b => b.id < a.id) → l₂.Pairwise (fun a b => b.id < a.id) →
    l₁ = l₂ := by
  intro l₁
  induction l₁ with
  | nil =>
      intro l₂ hp _ _
      exact hp.nil_eq
  | cons a t ih =>
      intro l₂ hp h₁ h₂
      cases l₂ with
      | nil => exact absurd hp (by simp)
      | cons b t₂ =>
          have hab : a = b := by
            by_contra hne
            have ha2 : a ∈ t₂ := by
              have hm : a ∈ b :: t₂ := hp.mem_iff.mp (List.mem_cons_self a t)
              rcases List.mem_cons.mp hm with h | h
              · exact absurd h hne
              · exact h
            have hb1 : b ∈ t := by
              have hm : b ∈ a :: t := hp.mem_iff.mpr (List.mem_cons_self b t₂)
              rcases List.mem_cons.mp hm with h | h
              · exact absurd h.symm hne
              · exact h
            have hba := List.rel_of_pairwise_cons h₁ hb1
            have hab2 := List.rel_of_pairwise_cons h₂ ha2
            exact absurd (Nat.lt_trans hba hab2) (Nat.lt_irrefl _)
          subst hab
          rw [ih hp.cons_inv h₁.of_cons h₂.of_cons]

/-- Sorting rows that are already in strictly increasing id order with the
`ORDER BY id DESC` comparator just reverses them. -/
lemma insertionSort_desc_eq_reverse {l : List Row}
    (h : l.Pairwise (fun a b => a.id < b.id)) :
    l.insertionSort ChatSession.descLe = l.reverse := by
  apply perm_pairwise_desc_eq
    ((l.perm_insertionSort ChatSession.descLe).trans (l.reverse_perm).symm)
  · have hsort : (l.insertionSort ChatSession.descLe).Pairwise ChatSession.descLe :=
      List.sorted_insertionSort ChatSession.descLe l
    have hne : (l.insertionSort ChatSession.descLe).Pairwise
        (fun a b : Row => a.id ≠ b.id) := by
      have hsymm : ∀ {x y : Row}, x.id ≠ y.id → y.id ≠ x.id := fun h => h.symm
      refine (List.Perm.pairwise_iff hsymm (l.perm_insertionSort ChatSession.descLe)).mpr ?_
      exact h.imp Nat.ne_of_lt
    exact (hsort.and hne).imp
      (fun hxy => Nat.lt_of_le_of_ne hxy.1 hxy.2.symm)
  · exact List.pairwise_reverse.mpr h

/-- On a state whose rows are in id order, `getContext` returns exactly the
`limit` most recent rows, oldest-first. -/
lemma getContext_snd {s : SessionState}
    (h : s.rows.Pairwise (fun a b => a.id < b.id)) (limit : Nat) :
    (ChatSession.getContext limit s).2 = s.rows.drop (s.rows.length - limit) := by
  show ((s.rows.insertionSort ChatSession.descLe).take limit).reverse = _
  rw [insertionSort_desc_eq_reverse h, List.take_reverse, List.reverse_reverse]

/-- The summary component of `getContext` is the stored summary, `""` if absent. -/
lemma getContext_fst (s : SessionState) (limit : Nat) :
    (ChatSession.getContext limit s).1 = s.summary.getD "" := rfl

lemma wellFormed_initState : WellFormed ChatSession.initState :=
  ⟨List.Pairwise.nil, by intro r hr; cases hr⟩

lemma append_rows (m : MemoryMessage) (now : Nat) (s : SessionState) :
    (ChatSession.append m now s).2.rows
      = s.rows ++ [⟨s.nextId, m.role, m.content, m.ts.getD now⟩] := rfl

lemma append_nextId (m : MemoryMessage) (now : Nat) (s : SessionState) :
    (ChatSession.append m now s).2.nextId = s.nextId + 1 := rfl

lemma append_summary (m : MemoryMessage) (now : Nat) (s : SessionState) :
    (ChatSession.append m now s).2.summary = s.summary := rfl

lemma wellFormed_append {s : SessionState} (h : WellFormed s)
    (m : MemoryMessage) (now : Nat) : WellFormed (ChatSession.append m now s).2 := by
  obtain ⟨h1, h2⟩ := h
  constructor
  · rw [append_rows, List.pairwise_append]
    refine ⟨h1, List.pairwise_singleton _ _, ?_⟩
    intro x hx y hy
    rw [List.mem_singleton] at hy
    subst hy
    exact h2 x hx
  · intro r hr
    rw [append_rows] at hr
    rw [append_nextId]
    rcases List.mem_append.mp hr with h | h
    · exact Nat.lt_succ_of_lt (h2 r h)
    · rw [List.mem_singleton] at h
      subst h
      exact Nat.lt_succ_self _

lemma appendAll_ids : ∀ (inputs : List (MemoryMessage × Nat)) (s : SessionState),
    (appendAll inputs s).1 = List.range' s.nextId inputs.length := by
  intro inputs
  induction inputs with
  | nil => intro s; simp [appendAll, List.range']
  | cons p rest ih =>
      intro s
      obtain ⟨m, now⟩ := p
      simp [appendAll, ih, ChatSession.append, List.range']

lemma appendAll_rows : ∀ (inputs : List (MemoryMessage × Nat)) (s : SessionState),
    (appendAll inputs s).2.rows = s.rows ++ mkRows s.nextId inputs := by
  intro inputs
  induction inputs with
  | nil => intro s; simp [appendAll, mkRows]
  | cons p rest ih =>
      intro s
      obtain ⟨m, now⟩ := p
      simp [appendAll, ih, ChatSession.append, mkRows]

lemma appendAll_nextId : ∀ (inputs : List (MemoryMessage × Nat)) (s : SessionState),
    (appendAll inputs s).2.nextId = s.nextId + inputs.length := by
  intro inputs
  induction inputs with
  | nil => intro s; simp [appendAll]
  | cons p rest ih =>
      intro s
      obtain ⟨m, now⟩ := p
      simp [appendAll, ih, ChatSession.append]
      omega

lemma appendAll_summary : ∀ (inputs : List (MemoryMessage × Nat)) (s : SessionState),
    (appendAll inputs s).2.summary = s.summary := by
  intro inputs
  induction inputs with
  | nil => intro s; simp [appendAll]
  | cons p rest ih =>
      intro s
      obtain ⟨m, now⟩ := p
      simp [appendAll, ih, ChatSession.append]

lemma wellFormed_appendAll : ∀ (inputs : List (MemoryMessage × Nat)) (s : SessionState),
    WellFormed s → WellFormed (appendAll inputs s).2 := by
  intro inputs
  induction inputs with
  | nil => intro s h; exact h
  | cons p rest ih =>
      intro s h
      obtain ⟨m, now⟩ := p
      exact ih _ (wellFormed_append h m now)

lemma mkRows_length : ∀ (k : Nat) (inputs : List (MemoryMessage × Nat)),
    (mkRows k inputs).length = inputs.length := by
  intro k inputs
  induction inputs generalizing k with
  | nil => simp [mkRows]
  | cons p rest ih => obtain ⟨m, now⟩ := p; simp [mkRows, ih]

lemma mkRows_sum : ∀ (k : Nat) (inputs : List (MemoryMessage × Nat)),
    ((mkRows k inputs).map (fun r => r.content.length)).sum
      = (inputs.map (fun p => p.1.content.length)).sum := by
  intro k inputs
  induction inputs generalizing k with
  | nil => simp [mkRows]
  | cons p rest ih => obtain ⟨m, now⟩ := p; simp [mkRows, ih]

lemma mkRows_proj : ∀ (k : Nat) (inputs : List (Role × String × Nat)),
    (mkRows k (inputs.map (fun i => (⟨none, i.1, i.2.1, some i.2.2⟩, 0)))).map
      (fun r => (r.role, r.content, r.ts)) = inputs := by
  intro k inputs
  induction inputs generalizing k with
  | nil => simp [mkRows]
  | cons i rest ih =>
      obtain ⟨r, c, t⟩ := i
      simp [mkRows, ih]

lemma length_replicate_str (n : Nat) (c : Char) :
    (String.mk (List.replicate n c)).length = n :=
  List.length_replicate n c

lemma approxChars_singleton (i : Nat) (ro : Role) (c : String) (ts n : Nat)
    (su : Option String) :
    ChatSession.approxChars ⟨[⟨i, ro, c, ts⟩], n, su⟩ = c.length := by
  simp [ChatSession.approxChars]

lemma approxChars_nearState : ChatSession.approxChars nearState = 9999 := by
  have h := approxChars_singleton 1 Role.user (String.mk (List.replicate 9999 'a'))
    0 2 (some "old")
  rw [length_replicate_str] at h
  exact h

lemma approxChars_bigState : ChatSession.approxChars bigState = 10000 := by
  have h := approxChars_singleton 1 Role.user (String.mk (List.replicate 10000 'a'))
    0 2 (some "old")
  rw [length_replicate_str] at h
  exact h

/-- Claim C2: over any sequence of appends the assigned sequence numbers are
the consecutive run starting at the AUTOINCREMENT counter (from a fresh
conversation: 1, 2, …, k) — strictly increasing, duplicate-free and gap-free —
and no store operation ever deletes a message: `append` only adds a row at the
end and `setSummary` leaves the message log unchanged. -/
theorem claim_C2_sequence_numbers
    (inputs : List (MemoryMessage × Nat)) (s : SessionState)
    (m : MemoryMessage) (now : Nat) (t : String) :
    (appendAll inputs s).1 = List.range' s.nextId inputs.length ∧
    (appendAll inputs ChatSession.initState).1 = List.range' 1 inputs.length ∧
    (appendAll inputs s).1.Pairwise (· < ·) ∧
    (ChatSession.append m now s).2.rows
      = s.rows ++ [⟨s.nextId, m.role, m.content, m.ts.getD now⟩] ∧
    (ChatSession.setSummary t s).rows = s.rows := by
  refine ⟨appendAll_ids inputs s, appendAll_ids inputs _, ?_,
    append_rows m now s, rfl⟩
  rw [appendAll_ids]
  exact List.pairwise_lt_range' _ _

/-- Claim C4: on any well-formed conversation state, `getContext limit`
returns at most `limit` messages, namely the `limit` most recent rows
(the suffix of the id-ordered log) in strictly increasing sequence order,
together with the current summary (empty string when absent). -/
theorem claim_C4_getContext_window (s : SessionState) (limit : Nat)
    (h : WellFormed s) :
    (ChatSession.getContext limit s).2.length ≤ limit ∧
    (ChatSession.getContext limit s).2 = s.rows.drop (s.rows.length - limit) ∧
    (ChatSession.getContext limit s).2.Pairwise (fun a b => a.id < b.id) ∧
    (ChatSession.getContext limit s).1 = s.summary.getD "" := by
  obtain ⟨h1, _⟩ := h
  refine ⟨?_, getContext_snd h1 limit, ?_, getContext_fst s limit⟩
  · rw [getContext_snd h1 limit, List.length_drop]
    omega
  · rw [getContext_snd h1 limit]
    exact List.Pairwise.sublist (List.drop_sublist _ _) h1

/-- Witness for claim C4 at a concrete three-message state with limit 2. -/
theorem claim_C4_witness :
    WellFormed demoState ∧
    ((ChatSession.getContext 2 demoState).2.length ≤ 2 ∧
     (ChatSession.getContext 2 demoState).2
       = demoState.rows.drop (demoState.rows.length - 2) ∧
     (ChatSession.getContext 2 demoState).2.Pairwise (fun a b => a.id < b.id) ∧
     (ChatSession.getContext 2 demoState).1 = demoState.summary.getD "") :=
  ⟨by decide, claim_C4_getContext_window demoState 2 (by decide)⟩

/-- Claim C7: `setSummary` is an idempotent upsert (writing the same text
twice equals writing it once), the last of two writers wins, and the message
log is untouched. -/
theorem claim_C7_setSummary_upsert (t t₁ t₂ : String) (s : SessionState) :
    ChatSession.setSummary t (ChatSession.setSummary t s) = ChatSession.setSummary t s ∧
    ChatSession.setSummary t₂ (ChatSession.setSummary t₁ s) = ChatSession.setSummary t₂ s ∧
    (ChatSession.setSummary t s).rows = s.rows :=
  ⟨rfl, rfl, rfl⟩

/-- Claim C8: appending `m1..mk` to a fresh conversation and then calling
`getContext k` returns exactly `m1..mk` (same roles, contents and timestamps,
in order), and the summary component is the empty string — no summary
contamination. -/
theorem claim_C8_round_trip (inputs : List (Role × String × Nat)) :
    ((ChatSession.getContext inputs.length
        (appendAll (inputs.map (fun i => (⟨none, i.1, i.2.1, some i.2.2⟩, 0)))
          ChatSession.initState).2).2.map (fun r => (r.role, r.content, r.ts))
      = inputs) ∧
    (ChatSession.getContext inputs.length
        (appendAll (inputs.map (fun i => (⟨none, i.1, i.2.1, some i.2.2⟩, 0)))
          ChatSession.initState).2).1 = "" := by
  have hwf := wellFormed_appendAll
    (inputs.map (fun i => (⟨none, i.1, i.2.1, some i.2.2⟩, 0)))
    ChatSession.initState wellFormed_initState
  have hrows := appendAll_rows
    (inputs.map (fun i => (⟨none, i.1, i.2.1, some i.2.2⟩, 0))) ChatSession.initState
  have hsum := appendAll_summary
    (inputs.map (fun i => (⟨none, i.1, i.2.1, some i.2.2⟩, 0))) ChatSession.initState
  constructor
  · rw [getContext_snd hwf.1]
    rw [hrows]
    simp only [ChatSession.initState, List.nil_append, mkRows_length, List.length_map,
      Nat.sub_self, List.drop_zero]
    exact mkRows_proj 1 inputs
  · rw [getContext_fst, hsum]
    rfl

/-- Claim C9: on a conversation on which `setSummary` was never called (any
sequence of appends from a fresh state), the summary row is absent and
`getContext` coalesces it to the empty string instead of failing. -/
theorem claim_C9_absent_summary (inputs : List (MemoryMessage × Nat)) (limit : Nat) :
    (appendAll inputs ChatSession.initState).2.summary = none ∧
    (ChatSession.getContext limit (appendAll inputs ChatSession.initState).2).1 = "" := by
  have h := appendAll_summary inputs ChatSession.initState
  refine ⟨h, ?_⟩
  rw [getContext_fst, h]
  rfl

/-- Claim C10: `approxChars` is 0 on an empty conversation (the NULL SQL
aggregate coalesced to 0) and equals the sum of the content lengths of all
messages ever appended; `setSummary` does not change it. -/
theorem claim_C10_approxChars (inputs : List (MemoryMessage × Nat))
    (s : SessionState) (t : String) :
    ChatSession.approxChars ChatSession.initState = 0 ∧
    ChatSession.approxChars (appendAll inputs s).2
      = ChatSession.approxChars s + (inputs.map (fun p => p.1.content.length)).sum ∧
    ChatSession.approxChars (appendAll inputs ChatSession.initState).2
      = (inputs.map (fun p => p.1.content.length)).sum ∧
    ChatSession.approxChars (ChatSession.setSummary t s) = ChatSession.approxChars s := by
  refine ⟨rfl, ?_, ?_, rfl⟩
  · unfold ChatSession.approxChars
    rw [appendAll_rows, List.map_append, List.sum_append, mkRows_sum]
  · unfold ChatSession.approxChars
    rw [appendAll_rows, List.map_append, List.sum_append, mkRows_sum]
    simp [ChatSession.initState]

lemma append_mk_rows (i : Option Nat) (ro : Role) (c : String) (t now : Nat)
    (s : SessionState) :
    (ChatSession.append ⟨i, ro, c, some t⟩ now s).2.rows
      = s.rows ++ [⟨s.nextId, ro, c, t⟩] := rfl

lemma approxChars_append (m : MemoryMessage) (now : Nat) (s : SessionState) :
    ChatSession.approxChars (ChatSession.append m now s).2
      = ChatSession.approxChars s + m.content.length := by
  unfold ChatSession.approxChars
  rw [append_rows, List.map_append, List.sum_append]
  simp

/-- Claim C3: the maybe-summarize step leaves the state untouched whenever
`approxChars() < 10000` (in particular at 9999), and whenever
`approxChars() ≥ 10000` (in particular at exactly 10000) and the
summarization engine returns non-empty text, that text is written as the new
summary via `setSummary`. -/
theorem claim_C3_summarize_threshold
    (aiS : List MemoryMessage → Except String String)
    (strf : List Row → String) (s₁ s₂ : SessionState) (t : String)
    (h1 : ChatSession.approxChars s₁ < 10000)
    (h2 : 10000 ≤ ChatSession.approxChars s₂)
    (h3 : aiS (summPrompt strf s₂) = Except.ok t)
    (h4 : t ≠ "") :
    maybeSummarizeStep aiS strf s₁ = Except.ok s₁ ∧
    maybeSummarizeStep aiS strf s₂ = Except.ok (ChatSession.setSummary t s₂) ∧
    (ChatSession.setSummary t s₂).summary = some t ∧ t ≠ "" := by
  refine ⟨?_, ?_, rfl, h4⟩
  · unfold maybeSummarizeStep
    rw [if_pos h1]
  · unfold maybeSummarizeStep
    rw [if_neg (by omega), h3]
    rfl

/-- Witness for claim C3 at 9999 characters (no-op) and 10000 characters
(summary written), with an engine answering "sum". -/
theorem claim_C3_witness :
    (ChatSession.approxChars nearState < 10000 ∧
     10000 ≤ ChatSession.approxChars bigState ∧
     okSummAI (summPrompt emptyJson bigState) = Except.ok "sum" ∧
     "sum" ≠ "") ∧
    (maybeSummarizeStep okSummAI emptyJson nearState = Except.ok nearState ∧
     maybeSummarizeStep okSummAI emptyJson bigState
       = Except.ok (ChatSession.setSummary "sum" bigState) ∧
     (ChatSession.setSummary "sum" bigState).summary = some "sum" ∧ "sum" ≠ "") :=
  ⟨⟨by simp [approxChars_nearState], by simp [approxChars_bigState], rfl, by decide⟩,
   claim_C3_summarize_threshold okSummAI emptyJson nearState bigState "sum"
     (by simp [approxChars_nearState]) (by simp [approxChars_bigState]) rfl (by decide)⟩

/-- Claim C6: if the inference engine rejects during a synchronous turn, the
turn returns that error to the caller (no partial-success result and no
assistant append), while the user message appended before the call remains in
the store. -/
theorem claim_C6_turn_error
    (ai : List MemoryMessage → Except String String) (text : String)
    (now1 now2 : Nat) (s : SessionState) (e : String)
    (h : ai (turnConvo text now1 s) = Except.error e) :
    runTurn ai text now1 now2 s
      = ((ChatSession.append ⟨none, Role.user, text, some now1⟩ now1 s).2,
         Except.error e) ∧
    (ChatSession.append ⟨none, Role.user, text, some now1⟩ now1 s).2.rows
      = s.rows ++ [⟨s.nextId, Role.user, text, now1⟩] := by
  constructor
  · unfold runTurn
    rw [h]
  · exact append_rows _ _ _

/-- Witness for claim C6: a failing engine on a fresh conversation. -/
theorem claim_C6_witness :
    errChatAI (turnConvo "hi" 0 ChatSession.initState)
      = Except.error "inference failed" ∧
    (runTurn errChatAI "hi" 0 1 ChatSession.initState
      = ((ChatSession.append ⟨none, Role.user, "hi", some 0⟩ 0 ChatSession.initState).2,
         Except.error "inference failed") ∧
     (ChatSession.append ⟨none, Role.user, "hi", some 0⟩ 0 ChatSession.initState).2.rows
      = ChatSession.initState.rows
        ++ [⟨ChatSession.initState.nextId, Role.user, "hi", 0⟩]) :=
  ⟨rfl, claim_C6_turn_error errChatAI "hi" 0 1 ChatSession.initState
    "inference failed" rfl⟩

/-- Claim C1 counterexample: on a fresh conversation with input "hi", the
background pipeline's prompt does not omit the final user entry — it ends
with a bare user entry repeating the input after the retrieved messages, and
so differs from the directive→summary→messages shape (which is what the
synchronous prompt is; the synchronous prompt's last entry is the stored copy
of the input, not a separately appended one). -/
theorem claim_C1_counterexample :
    pipelineConvo "hi" 0 ChatSession.initState
      ≠ turnConvo "hi" 0 ChatSession.initState ∧
    (pipelineConvo "hi" 0 ChatSession.initState).getLast?
      = some ⟨none, Role.user, "hi", none⟩ ∧
    (turnConvo "hi" 0 ChatSession.initState).getLast?
      = some ⟨some 1, Role.user, "hi", some 0⟩ := by
  decide

/-- Claim C1 amended: both prompt variants are ordered as fixed directive →
(one system summary entry iff the summary is non-empty) → the retrieved
recent messages oldest-first; the synchronous variant appends nothing further
(the new user input is already the last retrieved message), while the
background variant appends one extra bare user entry carrying the input
after the retrieved messages (a duplicate of the stored input). -/
theorem claim_C1_prompt_order (s : SessionState) (text : String) (now : Nat)
    (h : WellFormed s) :
    turnConvo text now s
      = systemPreamble ++ memoryBlock (s.summary.getD "")
        ++ (((ChatSession.append ⟨none, Role.user, text, some now⟩ now s).2.rows.drop
              ((ChatSession.append ⟨none, Role.user, text, some now⟩ now s).2.rows.length
                - 18)).map Row.toMsg) ∧
    (turnConvo text now s).getLast?
      = some (Row.toMsg ⟨s.nextId, Role.user, text, now⟩) ∧
    pipelineConvo text now s
      = turnConvo text now s ++ [⟨none, Role.user, text, none⟩] := by
  have hwf1 := wellFormed_append h ⟨none, Role.user, text, some now⟩ now
  have hmsg := getContext_snd hwf1.1 18
  have hsum : (ChatSession.getContext 18
      (ChatSession.append ⟨none, Role.user, text, some now⟩ now s).2).1
      = s.summary.getD "" := by
    rw [getContext_fst, append_summary]
  have hshape : turnConvo text now s
      = systemPreamble ++ memoryBlock (s.summary.getD "")
        ++ (((ChatSession.append ⟨none, Role.user, text, some now⟩ now s).2.rows.drop
              ((ChatSession.append ⟨none, Role.user, text, some now⟩ now s).2.rows.length
                - 18)).map Row.toMsg) := by
    unfold turnConvo
    rw [hmsg, hsum]
  refine ⟨hshape, ?_, rfl⟩
  rw [hshape, append_mk_rows]
  have hk : (s.rows ++ [(⟨s.nextId, Role.user, text, now⟩ : Row)]).length - 18
      ≤ s.rows.length := by
    rw [List.length_append]
    simp
  rw [List.drop_append_of_le_length hk]
  simp only [List.map_append, List.map_cons, List.map_nil, ← List.append_assoc]
  exact List.getLast?_concat _

/-- Witness for the amended claim C1 on a fresh conversation. -/
theorem claim_C1_prompt_order_witness :
    WellFormed ChatSession.initState ∧
    (turnConvo "hi" 0 ChatSession.initState
      = systemPreamble ++ memoryBlock (ChatSession.initState.summary.getD "")
        ++ (((ChatSession.append ⟨none, Role.user, "hi", some 0⟩ 0
                ChatSession.initState).2.rows.drop
              ((ChatSession.append ⟨none, Role.user, "hi", some 0⟩ 0
                ChatSession.initState).2.rows.length - 18)).map Row.toMsg) ∧
     (turnConvo "hi" 0 ChatSession.initState).getLast?
      = some (Row.toMsg ⟨ChatSession.initState.nextId, Role.user, "hi", 0⟩) ∧
     pipelineConvo "hi" 0 ChatSession.initState
      = turnConvo "hi" 0 ChatSession.initState ++ [⟨none, Role.user, "hi", none⟩]) :=
  ⟨by decide, claim_C1_prompt_order ChatSession.initState "hi" 0 (by decide)⟩

/-- Claim C5 counterexample: with the conversation at the threshold and a
summarization engine whose call rejects, the workflow run does not complete —
the step's error propagates as the run's result. -/
theorem claim_C5_counterexample :
    (ChatWorkflow.run okChatAI errSummAI emptyJson "x" 0 0 bigState).2
      = Except.error "boom" := by
  have h2 : ChatSession.approxChars (afterTurnAppends "x" "fine" 0 0 bigState) = 10005 := by
    unfold afterTurnAppends
    rw [approxChars_append, approxChars_append, approxChars_bigState]
    decide
  have hstep : maybeSummarizeStep errSummAI emptyJson
      (afterTurnAppends "x" "fine" 0 0 bigState) = Except.error "boom" := by
    unfold maybeSummarizeStep
    rw [h2]
    rfl
  simp only [ChatWorkflow.run, okChatAI, hstep]

/-- Claim C5 amended: a failure of the summarization inference call fails the
workflow run (the step's error propagates and, after the step-sequencer's
retries, the instance is marked errored) rather than the run completing;
however the prior summary remains in effect unchanged and the two messages
appended earlier in the run remain persisted. -/
theorem claim_C5_summarization_failure
    (aiChat aiSumm : List MemoryMessage → Except String String)
    (strf : List Row → String) (text a : String) (now1 now2 : Nat)
    (s : SessionState) (e : String)
    (hok : aiChat (pipelineConvo text now1 s) = Except.ok a)
    (hbig : ¬ ChatSession.approxChars (afterTurnAppends text a now1 now2 s) < 10000)
    (hfail : aiSumm (summPrompt strf (afterTurnAppends text a now1 now2 s))
      = Except.error e) :
    ChatWorkflow.run aiChat aiSumm strf text now1 now2 s
      = (afterTurnAppends text a now1 now2 s, Except.error e) ∧
    (afterTurnAppends text a now1 now2 s).summary = s.summary ∧
    (afterTurnAppends text a now1 now2 s).rows
      = s.rows ++ [⟨s.nextId, Role.user, text, now1⟩,
                   ⟨s.nextId + 1, Role.assistant, a, now2⟩] := by
  have hstep : maybeSummarizeStep aiSumm strf (afterTurnAppends text a now1 now2 s)
      = Except.error e := by
    unfold maybeSummarizeStep
    rw [if_neg hbig, hfail]
    rfl
  refine ⟨?_, ?_, ?_⟩
  · simp only [ChatWorkflow.run, hok, hstep]
  · unfold afterTurnAppends
    rw [append_summary, append_summary]
  · unfold afterTurnAppends
    rw [append_mk_rows, append_mk_rows, append_nextId]
    simp

/-- Witness for the amended claim C5: threshold-sized conversation, engine
whose summarization call rejects with "boom". -/
theorem claim_C5_summarization_failure_witness :
    (okChatAI (pipelineConvo "x" 0 bigState) = Except.ok "fine" ∧
     ¬ ChatSession.approxChars (afterTurnAppends "x" "fine" 0 0 bigState) < 10000 ∧
     errSummAI (summPrompt emptyJson (afterTurnAppends "x" "fine" 0 0 bigState))
      = Except.error "boom") ∧
    (ChatWorkflow.run okChatAI errSummAI emptyJson "x" 0 0 bigState
      = (afterTurnAppends "x" "fine" 0 0 bigState, Except.error "boom") ∧
     (afterTurnAppends "x" "fine" 0 0 bigState).summary = bigState.summary ∧
     (afterTurnAppends "x" "fine" 0 0 bigState).rows
      = bigState.rows ++ [⟨bigState.nextId, Role.user, "x", 0⟩,
                          ⟨bigState.nextId + 1, Role.assistant, "fine", 0⟩]) :=
  ⟨⟨rfl,
    by simp only [afterTurnAppends, approxChars_append, approxChars_bigState]; decide,
    rfl⟩,
   claim_C5_summarization_failure okChatAI errSummAI emptyJson "x" "fine" 0 0
     bigState "boom" rfl
     (by simp only [afterTurnAppends, approxChars_append, approxChars_bigState]; decide)
     rfl⟩
